import Mathlib

/-!
# Rekall entity-collection engine: a shallow embedding

This file embeds the entity-collection engine of the Rekall memory-forensics
platform and its Darwin handle/socket collectors
(`rekall/plugins/collectors/darwin/handles.py`), and proves properties of the
identity store, entity store merge, query evaluator, dependency planner,
runner, and the concrete collectors.

The repository ships only the Darwin collector plugins and the CLI entry
point; the core engine (Identity Store, Entity Store, Query Evaluator,
Planner, Scheduler/Runner, component schema definitions) is specified but not
present in the source tree.  Definitions for those parts are modelled from the
specification and are marked `Modelled from the spec:` in their doc comments.
The collector definitions are translated directly from
`rekall/plugins/collectors/darwin/handles.py`.
-/

namespace Rekall

/-- A stable, process-lifetime-unique entity token (spec §3 "Identity").
Modelled as a natural number allocated by the Identity Store. -/
abbrev Identity := Nat

/-- Values carried by component fields and canonical keys: strings, integers,
identity references, and raw kernel-object pointers (base objects are
modelled by their address). -/
inductive Value where
  | str (s : String)
  | int (n : Int)
  | ident (i : Identity)
  | ptr (a : Nat)
deriving DecidableEq, Repr

/-- A canonical key: a tuple of (attribute-path, value) pairs (spec §3).
A composite key such as
`{(Event/actor, Event/action, Event/target, Event/category): (...)}` is
flattened into one pair per attribute path. -/
abbrev CanonKey := List (String × Value)

/-- Modelled from the spec: the Identity Store (§4.1), missing from the
source tree.  Maps canonical keys to identities; `next` is the next fresh
identity to allocate. -/
structure IdStore where
  table : List (CanonKey × Identity)
  next : Nat
deriving DecidableEq, Repr

/-- Modelled from the spec: `identify(key) -> Identity` (§4.1).  Memoized:
a key already in the table resolves to its recorded identity and leaves the
store unchanged; a fresh key is bound to a freshly allocated identity. -/
def IdStore.identify (s : IdStore) (k : CanonKey) : IdStore × Identity :=
  match s.table.lookup k with
  | some i => (s, i)
  | none => (⟨(k, s.next) :: s.table, s.next + 1⟩, s.next)

/-- Modelled from the spec: `alias(existing_identity, new_key)` (§4.1)
registers an additional key pointing at an existing identity.  A key that is
already bound is the identity-conflict error case (§7c), surfaced to the
collector; the store itself is left unchanged. -/
def IdStore.addAlias (s : IdStore) (i : Identity) (k : CanonKey) : IdStore :=
  match s.table.lookup k with
  | some _ => s
  | none => ⟨(k, i) :: s.table, s.next⟩

/-- The identities currently bound in the store (with multiplicity). -/
def IdStore.identities (s : IdStore) : List Identity :=
  s.table.map Prod.snd

/-- `Evolves s t`: the store `t` is reachable from `s` by any sequence of
subsequent `identify` calls (repeated, independent calls from different
collectors within one session). -/
inductive IdStore.Evolves (s : IdStore) : IdStore → Prop where
  | refl : IdStore.Evolves s s
  | step (t : IdStore) (k : CanonKey) :
      IdStore.Evolves s t → IdStore.Evolves s (t.identify k).1

theorem IdStore.identify_eq_of_lookup (s : IdStore) (k : CanonKey)
    (i : Identity) (h : s.table.lookup k = some i) : s.identify k = (s, i) := by
  unfold IdStore.identify
  simp [h]

theorem IdStore.lookup_identify_self (s : IdStore) (k : CanonKey) :
    ((s.identify k).1).table.lookup k = some (s.identify k).2 := by
  unfold IdStore.identify
  cases h : s.table.lookup k with
  | some i => simp [h]
  | none => simp [h, List.lookup]

theorem IdStore.lookup_preserved (s t : IdStore) (k : CanonKey) (i : Identity)
    (hl : s.table.lookup k = some i) (he : IdStore.Evolves s t) :
    t.table.lookup k = some i := by
  induction he with
  | refl => exact hl
  | step t' k' _ ih =>
    unfold IdStore.identify
    cases h : t'.table.lookup k' with
    | some j => simpa [h] using ih
    | none =>
      simp only [h]
      have hb : (k == k') = false := by
        rw [beq_eq_false_iff_ne]
        intro hkk
        subst hkk
        rw [ih] at h
        exact Option.noConfusion h
      simp [List.lookup, hb, ih]

/-- C2: the Identity Store's `identify` is idempotent and deterministic: for
every canonical key, after a first `identify(key)` call, every subsequent
`identify(key)` — including repeated, independent calls issued after any
sequence of other `identify` calls by other collectors — returns the
identical Identity, and leaves the store unchanged (memoized). -/
theorem identify_deterministic (s t : IdStore) (k : CanonKey)
    (he : IdStore.Evolves (s.identify k).1 t) :
    (t.identify k).2 = (s.identify k).2 ∧ (t.identify k).1 = t := by
  have hl := IdStore.lookup_preserved (s.identify k).1 t k (s.identify k).2
    (IdStore.lookup_identify_self s k) he
  have hid := IdStore.identify_eq_of_lookup t k (s.identify k).2 hl
  exact ⟨by rw [hid], by rw [hid]⟩

/-- Witness for C2 at a concrete store: identify a key on the empty store,
then identify a different key (an independent collector's call), then
identify the first key again; the identity returned is the original one. -/
theorem identify_deterministic_witness :
    ((((IdStore.mk [] 0).identify [("File/path", Value.str "/a")]).1.identify
        [("User/uid", Value.int 7)]).1.identify
        [("File/path", Value.str "/a")]).2 =
      ((IdStore.mk [] 0).identify [("File/path", Value.str "/a")]).2 :=
  (identify_deterministic (IdStore.mk [] 0) _ [("File/path", Value.str "/a")]
    (IdStore.Evolves.step _ [("User/uid", Value.int 7)]
      IdStore.Evolves.refl)).1

/-- C3: after `alias(existing_identity, new_key)` for a fresh key, every
subsequent `identify(new_key)` call — after any further sequence of
`identify` calls — returns the existing identity; and the alias registration
creates no second identity: the allocation counter is unchanged and the set
of bound identities is unchanged. -/
theorem alias_no_second_identity (s t : IdStore) (i : Identity) (k : CanonKey)
    (hk : s.table.lookup k = none) (hi : i ∈ s.identities)
    (he : IdStore.Evolves (s.addAlias i k) t) :
    (t.identify k).2 = i ∧ (s.addAlias i k).next = s.next ∧
      ∀ j, j ∈ (s.addAlias i k).identities ↔ j ∈ s.identities := by
  have htable : (s.addAlias i k).table.lookup k = some i := by
    unfold IdStore.addAlias
    simp [hk, List.lookup]
  have hl := IdStore.lookup_preserved (s.addAlias i k) t k i htable he
  refine ⟨?_, ?_, ?_⟩
  · rw [IdStore.identify_eq_of_lookup t k i hl]
  · unfold IdStore.addAlias
    simp [hk]
  · intro j
    unfold IdStore.addAlias
    simp only [hk]
    unfold IdStore.identities
    simp only [List.map_cons, List.mem_cons]
    constructor
    · rintro (rfl | h)
      · exact hi
      · exact h
    · intro h
      exact Or.inr h

/-- Witness for C3 at a concrete store: bind one key, alias a second key to
the resulting identity, run one unrelated identify call, then identify the
aliased key: the original identity comes back, and no identity was created. -/
theorem alias_no_second_identity_witness :
    ((((IdStore.mk [] 0).identify [("File/path", Value.str "/a")]).1.addAlias
        ((IdStore.mk [] 0).identify [("File/path", Value.str "/a")]).2
        [("Named/name", Value.str "a")]).identify
        [("Named/name", Value.str "a")]).2 =
      ((IdStore.mk [] 0).identify [("File/path", Value.str "/a")]).2 :=
  (alias_no_second_identity
    ((IdStore.mk [] 0).identify [("File/path", Value.str "/a")]).1 _
    ((IdStore.mk [] 0).identify [("File/path", Value.str "/a")]).2
    [("Named/name", Value.str "a")] (by decide) (by decide)
    IdStore.Evolves.refl).1

/-- Modelled from the spec: a component instance (§3), missing from the
source tree.  A named record whose fields are attribute names paired with
optionally-absent values; an absent field is `none`. -/
structure ComponentInstance where
  ctype : String
  fields : List (String × Option Value)
deriving DecidableEq, Repr

/-- The value of field `n` on a component instance: `none` when the field is
undeclared or absent. -/
def fieldOf (c : ComponentInstance) (n : String) : Option Value :=
  (c.fields.lookup n).join

/-- Modelled from the spec: the field-level merge of the Entity Store (§4.2).
Every field set (non-absent) in the new instance overwrites the corresponding
field of the existing instance; fields absent in the new instance leave the
existing value untouched. -/
def mergeFields (old new : List (String × Option Value)) :
    List (String × Option Value) :=
  old.map fun p =>
    (p.1, match new.lookup p.1 with
          | some (some v) => some v
          | _ => p.2)

/-- Merge one component instance into a component list: a component type not
yet present is attached as-is; one already present is merged field-level. -/
def mergeComponent : List ComponentInstance → ComponentInstance →
    List ComponentInstance
  | [], c => [c]
  | d :: ds, c =>
    if d.ctype = c.ctype then
      ⟨d.ctype, mergeFields d.fields c.fields⟩ :: ds
    else
      d :: mergeComponent ds c

/-- Modelled from the spec: the Entity Store (§4.2), missing from the source
tree.  Maps each identity to its merged set of component instances. -/
abbrev EntStore := List (Identity × List ComponentInstance)

/-- Modelled from the spec: `merge(identity, component_instance)` (§4.2). -/
def entMerge : EntStore → Identity → ComponentInstance → EntStore
  | [], i, c => [(i, [c])]
  | (j, cs) :: rest, i, c =>
    if j = i then (j, mergeComponent cs c) :: rest
    else (j, cs) :: entMerge rest i c

/-- The component list currently attached to identity `i`. -/
def entComps (s : EntStore) (i : Identity) : List ComponentInstance :=
  (s.lookup i).getD []

/-- Find the component instance of type `t` in a component list. -/
def getComp (cs : List ComponentInstance) (t : String) :
    Option ComponentInstance :=
  cs.find? (fun c => c.ctype == t)

/-- The component of type `t` attached to identity `i`. -/
def entGetComp (s : EntStore) (i : Identity) (t : String) :
    Option ComponentInstance :=
  getComp (entComps s i) t

theorem entComps_entMerge (s : EntStore) (i : Identity)
    (c : ComponentInstance) :
    entComps (entMerge s i c) i = mergeComponent (entComps s i) c := by
  induction s with
  | nil => simp [entMerge, entComps, List.lookup, mergeComponent]
  | cons row rest ih =>
    obtain ⟨j, cs⟩ := row
    by_cases hj : j = i
    · subst hj
      simp [entMerge, entComps, List.lookup]
    · have hb : (i == j) = false := by
        rw [beq_eq_false_iff_ne]
        exact fun hh => hj hh.symm
      simp only [entMerge, if_neg hj]
      simp only [entComps, List.lookup, hb] at ih ⊢
      exact ih

theorem entComps_entMerge_other (s : EntStore) (i j : Identity)
    (c : ComponentInstance) (hij : j ≠ i) :
    entComps (entMerge s i c) j = entComps s j := by
  induction s with
  | nil =>
    have hb : (j == i) = false := beq_eq_false_iff_ne.mpr hij
    simp [entMerge, entComps, List.lookup, hb]
  | cons row rest ih =>
    obtain ⟨a, cs⟩ := row
    by_cases ha : a = i
    · subst ha
      have hb : (j == a) = false := beq_eq_false_iff_ne.mpr hij
      simp [entMerge, entComps, List.lookup, hb]
    · simp only [entMerge, if_neg ha]
      by_cases hja : j = a
      · subst hja
        simp [entComps, List.lookup]
      · have hb : (j == a) = false := beq_eq_false_iff_ne.mpr hja
        simp only [entComps, List.lookup, hb] at ih ⊢
        exact ih

theorem getComp_mergeComponent_self (cs : List ComponentInstance)
    (c : ComponentInstance) :
    getComp (mergeComponent cs c) c.ctype =
      some (match getComp cs c.ctype with
            | none => c
            | some old => ⟨c.ctype, mergeFields old.fields c.fields⟩) := by
  induction cs with
  | nil => simp [mergeComponent, getComp, List.find?]
  | cons d ds ih =>
    by_cases hd : d.ctype = c.ctype
    · simp [mergeComponent, hd, getComp, List.find?]
    · have hb : (d.ctype == c.ctype) = false := beq_eq_false_iff_ne.mpr hd
      simp only [mergeComponent, if_neg hd]
      simp only [getComp, List.find?, hb] at ih ⊢
      exact ih

theorem getComp_mergeComponent_other (cs : List ComponentInstance)
    (c : ComponentInstance) (t : String) (ht : t ≠ c.ctype) :
    getComp (mergeComponent cs c) t = getComp cs t := by
  have hct : (c.ctype == t) = false :=
    beq_eq_false_iff_ne.mpr (fun hh => ht hh.symm)
  induction cs with
  | nil => simp [mergeComponent, getComp, List.find?, hct]
  | cons d ds ih =>
    by_cases hd : d.ctype = c.ctype
    · have hb : (d.ctype == t) = false := by
        rw [beq_eq_false_iff_ne, hd]
        exact fun hh => ht hh.symm
      simp [mergeComponent, hd, getComp, List.find?, hb, hct]
    · by_cases hdt : d.ctype = t
      · simp only [mergeComponent, if_neg hd]
        simp [getComp, List.find?, hdt]
      · have hb : (d.ctype == t) = false := beq_eq_false_iff_ne.mpr hdt
        simp only [mergeComponent, if_neg hd]
        simp only [getComp, List.find?, hb] at ih ⊢
        exact ih

theorem lookup_map_keyed (l : List (String × Option Value))
    (g : String → Option Value → Option Value) (n : String) :
    (l.map fun p => (p.1, g p.1 p.2)).lookup n = (l.lookup n).map (g n) := by
  induction l with
  | nil => simp [List.lookup]
  | cons p ps ih =>
    by_cases hn : n = p.1
    · subst hn
      simp [List.lookup]
    · have hb : (n == p.1) = false := beq_eq_false_iff_ne.mpr hn
      simp [List.lookup, hb, ih]

theorem lookup_none_iff_not_mem_keys (l : List (String × Option Value))
    (n : String) : l.lookup n = none ↔ n ∉ l.map Prod.fst := by
  induction l with
  | nil => simp [List.lookup]
  | cons p ps ih =>
    by_cases hn : n = p.1
    · subst hn
      simp [List.lookup]
    · have hb : (n == p.1) = false := beq_eq_false_iff_ne.mpr hn
      simp [List.lookup, hb, ih, hn]

theorem lookup_mergeFields (old new : List (String × Option Value))
    (n : String) :
    (mergeFields old new).lookup n =
      (old.lookup n).map fun v =>
        match new.lookup n with
        | some (some w) => some w
        | _ => v :=
  lookup_map_keyed old
    (fun m v => match new.lookup m with
                | some (some w) => some w
                | _ => v) n

/-- C1: the Entity Store merge is field-level.  (a) A component type not yet
present on the identity is attached as-is.  (b) For a component type already
present (with the same declared field names, as both instances belong to one
declared component type), every non-absent field of the new instance
overwrites the corresponding field of the existing instance and every absent
field leaves the existing value untouched.  (c) In particular, merging
`A{x:1, y:absent}` and then `A{x:absent, y:2}` onto the same identity yields
`A{x:1, y:2}`. -/
theorem entity_store_merge_field_level (s : EntStore) (i : Identity)
    (c old : ComponentInstance)
    (hschema : old.fields.map Prod.fst = c.fields.map Prod.fst) :
    (entGetComp s i c.ctype = none →
      entGetComp (entMerge s i c) i c.ctype = some c) ∧
    (entGetComp s i c.ctype = some old →
      ∀ n, (entGetComp (entMerge s i c) i c.ctype).bind (fieldOf · n) =
        (fieldOf c n).or (fieldOf old n)) ∧
    (entGetComp (entMerge (entMerge ([] : EntStore) 0
        ⟨"A", [("x", some (Value.int 1)), ("y", none)]⟩) 0
        ⟨"A", [("x", none), ("y", some (Value.int 2))]⟩) 0 "A" =
      some ⟨"A", [("x", some (Value.int 1)), ("y", some (Value.int 2))]⟩) := by
  have hmain : entGetComp (entMerge s i c) i c.ctype =
      some (match entGetComp s i c.ctype with
            | none => c
            | some o => ⟨c.ctype, mergeFields o.fields c.fields⟩) := by
    unfold entGetComp
    rw [entComps_entMerge]
    exact getComp_mergeComponent_self (entComps s i) c
  refine ⟨?_, ?_, by decide⟩
  · intro hnone
    rw [hmain, hnone]
  · intro hsome n
    rw [hmain, hsome]
    simp only [Option.some_bind]
    unfold fieldOf
    rw [lookup_mergeFields]
    cases hln : old.fields.lookup n with
    | none =>
      have hnk : n ∉ old.fields.map Prod.fst :=
        (lookup_none_iff_not_mem_keys old.fields n).mp hln
      rw [hschema] at hnk
      have hlc : c.fields.lookup n = none :=
        (lookup_none_iff_not_mem_keys c.fields n).mpr hnk
      simp [hlc]
    | some v =>
      cases hlc : c.fields.lookup n with
      | none => simp [hlc]
      | some w =>
        cases w with
        | none => simp [hlc]
        | some u => simp [hlc]

/-- Witness for C1 at concrete inputs: merging `A{x:1, y:absent}` then
`A{x:absent, y:2}` onto the fresh identity `0` of the empty store, parts (a)
and (b) of the merge law evaluate as claimed. -/
theorem entity_store_merge_field_level_witness :
    entGetComp (entMerge ([] : EntStore) 0
        ⟨"A", [("x", some (Value.int 1)), ("y", none)]⟩) 0 "A" =
      some ⟨"A", [("x", some (Value.int 1)), ("y", none)]⟩ ∧
    (entGetComp (entMerge (entMerge ([] : EntStore) 0
        ⟨"A", [("x", some (Value.int 1)), ("y", none)]⟩) 0
        ⟨"A", [("x", none), ("y", some (Value.int 2))]⟩) 0 "A").bind
      (fieldOf · "y") = some (Value.int 2) := by
  have h2 := (entity_store_merge_field_level
    (entMerge ([] : EntStore) 0
      ⟨"A", [("x", some (Value.int 1)), ("y", none)]⟩)
    0 ⟨"A", [("x", none), ("y", some (Value.int 2))]⟩
    ⟨"A", [("x", some (Value.int 1)), ("y", none)]⟩ (by decide)).2.1
  refine ⟨?_, ?_⟩
  · exact (entity_store_merge_field_level ([] : EntStore) 0
      ⟨"A", [("x", some (Value.int 1)), ("y", none)]⟩
      ⟨"A", [("x", some (Value.int 1)), ("y", none)]⟩ (by decide)).1
      (by decide)
  · rw [h2 (by decide) "y"]
    decide

/-- Modelled from the spec: the Query Evaluator's primitive terms (§4.3),
missing from the source tree: membership (`has component X`), equality
(`Path is literal`), and cross-field equality; a dependency expression is a
conjunction of such terms. -/
inductive QTerm where
  | hasComponent (t : String)
  | attrIs (ct fn : String) (v : Value)
  | attrEq (ct fn ct2 fn2 : String)
deriving DecidableEq, Repr

/-- Attribute-path lookup `Component/field` on an entity's component list:
`none` when the component is missing, the field is not declared, or the
field is absent. -/
def getAttr (cs : List ComponentInstance) (ct fn : String) : Option Value :=
  match getComp cs ct with
  | none => none
  | some c => fieldOf c fn

/-- Modelled from the spec: evaluation of one query term against one entity
(§4.3).  A total Boolean function: evaluation cannot raise. -/
def evalTerm (cs : List ComponentInstance) : QTerm → Bool
  | .hasComponent t => (getComp cs t).isSome
  | .attrIs ct fn v => getAttr cs ct fn == some v
  | .attrEq a b c d =>
    match getAttr cs a b, getAttr cs c d with
    | some x, some y => x == y
    | _, _ => false

/-- Modelled from the spec: a query is the conjunction of its terms (§4.3). -/
def evalQuery (cs : List ComponentInstance) (q : List QTerm) : Bool :=
  q.all (evalTerm cs)

/-- C9: a query term whose attribute path is unknown — the component type is
not present on the entity, or the field is not a declared field of the
component — evaluates to "no match": equality and cross-field terms over the
unknown path are false, and any conjunction containing such a term is false.
Query evaluation is the total Boolean function `evalQuery`, so it never
raises an error. -/
theorem query_unknown_path_no_match (cs : List ComponentInstance)
    (q : List QTerm) (ct fn ct2 fn2 : String) (v : Value)
    (hunknown : getComp cs ct = none ∨
      ∀ c, getComp cs ct = some c → c.fields.lookup fn = none) :
    evalTerm cs (.attrIs ct fn v) = false ∧
    evalTerm cs (.attrEq ct fn ct2 fn2) = false ∧
    evalTerm cs (.attrEq ct2 fn2 ct fn) = false ∧
    (QTerm.attrIs ct fn v ∈ q → evalQuery cs q = false) := by
  have hattr : getAttr cs ct fn = none := by
    cases hunknown with
    | inl h => simp [getAttr, h]
    | inr h =>
      cases hc : getComp cs ct with
      | none => simp [getAttr, hc]
      | some c =>
        simp [getAttr, hc, fieldOf, h c hc]
  have h1 : evalTerm cs (.attrIs ct fn v) = false := by
    simp [evalTerm, hattr]
  refine ⟨h1, by simp [evalTerm, hattr], ?_, ?_⟩
  · cases hx : getAttr cs ct2 fn2 with
    | none => simp [evalTerm, hx]
    | some x => simp [evalTerm, hx, hattr]
  · intro hmem
    rw [evalQuery]
    cases hall : q.all (evalTerm cs) with
    | false => rfl
    | true =>
      have := (List.all_eq_true.mp hall) _ hmem
      rw [h1] at this
      exact absurd this (by simp)

/-- Witness for C9 at a concrete entity: an entity with one `Named`
component matches neither an `attrIs` over a missing component type nor one
over an undeclared field, and a conjunction containing the term is false. -/
theorem query_unknown_path_no_match_witness :
    evalTerm [⟨"Named", [("name", some (Value.str "x"))]⟩]
      (.attrIs "File" "path" (Value.str "x")) = false ∧
    evalQuery [⟨"Named", [("name", some (Value.str "x"))]⟩]
      [.hasComponent "Named", .attrIs "File" "path" (Value.str "x")] =
      false := by
  have h := query_unknown_path_no_match
    [⟨"Named", [("name", some (Value.str "x"))]⟩]
    [.hasComponent "Named", .attrIs "File" "path" (Value.str "x")]
    "File" "path" "Named" "name" (Value.str "x") (Or.inl (by decide))
  exact ⟨h.1, h.2.2.2 (by decide)⟩

/-- Modelled from the spec: the Scheduler/Runner's defensive-parsing policy
(§4.5), missing from the source tree.  Each element of the input sequence is
the attempted interpretation of one yield record: `.ok` carries the record,
`.error` carries the exception raised while interpreting that record.  The
exception is caught per-record: the record is skipped (and counted) and the
run continues to completion. -/
def runDefensive {α : Type} : List (Except String α) → List α × Nat
  | [] => ([], 0)
  | .ok r :: rest =>
    let p := runDefensive rest
    (r :: p.1, p.2)
  | .error _ :: rest =>
    let p := runDefensive rest
    (p.1, p.2 + 1)

/-- C4: an exception raised while interpreting a single yield record is
caught per-record and only that record is skipped: for any collector
invocation whose record interpretations are `pre` valid records, one
malformed record, and `post` further valid records (e.g. one malformed among
ten, leaving nine valid), the run yields exactly the valid records
`pre ++ post`, skips exactly the one malformed record, and completes instead
of aborting. -/
theorem collector_failure_skips_record {α : Type} (pre post : List α)
    (msg : String) :
    runDefensive (pre.map .ok ++ .error msg :: post.map .ok) =
      (pre ++ post, 1) := by
  induction pre with
  | nil =>
    simp only [List.map_nil, List.nil_append, runDefensive]
    have hpost : runDefensive (post.map .ok) = (post, 0) := by
      induction post with
      | nil => rfl
      | cons r rs ih => simp [runDefensive, ih]
    simp [hpost]
  | cons r rs ih =>
    simp [runDefensive, ih]

/-- Modelled from the spec: a declared collector output (§3): a component
type, optionally qualified by a `field=value` filter, as in
`MemoryObject/type=socket`. -/
structure OutputSpec where
  ctype : String
  filter : Option (String × String)
deriving DecidableEq, Repr

/-- Modelled from the spec: one `collect_args` dependency query (§3): the
component type it selects, optionally narrowed by a `field is 'value'`
literal, as in `MemoryObject/type is 'socket'`. -/
structure QuerySpec where
  ctype : String
  filter : Option (String × String)
deriving DecidableEq, Repr

/-- Modelled from the spec: a collector descriptor (§3): declared outputs,
named input dependencies, and ordinal cost class. -/
structure CollectorSpec where
  cname : String
  outputs : List OutputSpec
  cargs : List QuerySpec
  runCost : Nat
deriving DecidableEq, Repr

/-- Modelled from the spec: an output can satisfy a dependency query when the
component types match and, when both carry a filter on the same field, the
filter literals agree (§4.4). -/
def supplies (o : OutputSpec) (q : QuerySpec) : Bool :=
  o.ctype == q.ctype &&
    match o.filter, q.filter with
    | some (f, v), some (g, w) => f != g || v == w
    | _, _ => true

/-- Collector `d` can supply dependency query `q` through one of its
declared outputs. -/
def canSupply (d : CollectorSpec) (q : QuerySpec) : Bool :=
  d.outputs.any (fun o => supplies o q)

/-- Collector `c` can directly produce one of the requested outputs. -/
def producesRequested (c : CollectorSpec) (req : List QuerySpec) : Bool :=
  req.any (fun q => canSupply c q)

/-- `TransReq reg req c`: collector `c` is transitively required to produce
one of `req`: either it directly produces a requested output, or it can
supply a `collect_args` dependency of a transitively required collector. -/
inductive TransReq (reg : List CollectorSpec) (req : List QuerySpec) :
    CollectorSpec → Prop where
  | base (c : CollectorSpec) : c ∈ reg → producesRequested c req = true →
      TransReq reg req c
  | step (c d : CollectorSpec) (q : QuerySpec) : TransReq reg req c →
      d ∈ reg → q ∈ c.cargs → canSupply d q = true → TransReq reg req d

/-- One closure step of the required-collector computation. -/
def requiredStep (reg : List CollectorSpec) (req : List QuerySpec)
    (S : List CollectorSpec) : List CollectorSpec :=
  reg.filter fun c => producesRequested c req ||
    S.any fun s => s.cargs.any fun q => canSupply c q

/-- Iterated closure of the required-collector computation. -/
def requiredIter (reg : List CollectorSpec) (req : List QuerySpec) :
    Nat → List CollectorSpec
  | 0 => reg.filter fun c => producesRequested c req
  | n + 1 => requiredStep reg req (requiredIter reg req n)

/-- Modelled from the spec: the set of collectors transitively required to
produce `req` (§4.4 lazy inclusion), closed in at most `reg.length` steps. -/
def requiredSet (reg : List CollectorSpec) (req : List QuerySpec) :
    List CollectorSpec :=
  requiredIter reg req reg.length

/-- A collector is eligible when no other remaining collector can still
supply one of its inputs (its suppliers have all been scheduled). -/
def eligible (rem : List CollectorSpec) (c : CollectorSpec) : Bool :=
  c.cargs.all fun q => rem.all fun d => d == c || !canSupply d q

/-- The first collector of minimal `run_cost` in a list. -/
def pickMinCost : List CollectorSpec → Option CollectorSpec
  | [] => none
  | c :: cs =>
    some (cs.foldl (fun b d => if d.runCost < b.runCost then d else b) c)

/-- Modelled from the spec: topological ordering of the required collectors
(§4.4): repeatedly schedule an eligible collector of minimal `run_cost`
(ties in the topological order are broken by ascending cost); a cycle, in
which no collector is eligible, is broken by scheduling the cheapest
remaining collector and relying on incremental re-invocation (§4.5). -/
def scheduleLoop : Nat → List CollectorSpec → List CollectorSpec
  | 0, _ => []
  | fuel + 1, rem =>
    let el := rem.filter (eligible rem)
    match pickMinCost (if el.isEmpty then rem else el) with
    | none => []
    | some c => c :: scheduleLoop fuel (rem.erase c)

/-- Modelled from the spec: `plan(requested_outputs)` (§4.4): the ordered
plan over the transitively required collectors.  The Scheduler (§4.5)
executes exactly the planned collectors, in plan order. -/
def plan (reg : List CollectorSpec) (req : List QuerySpec) :
    List CollectorSpec :=
  scheduleLoop (requiredSet reg req).length (requiredSet reg req)

theorem requiredIter_sound (reg : List CollectorSpec) (req : List QuerySpec)
    (n : Nat) (c : CollectorSpec) (hc : c ∈ requiredIter reg req n) :
    TransReq reg req c := by
  induction n generalizing c with
  | zero =>
    rw [requiredIter, List.mem_filter] at hc
    exact TransReq.base c hc.1 hc.2
  | succ n ih =>
    rw [requiredIter, requiredStep, List.mem_filter] at hc
    obtain ⟨hreg, hcond⟩ := hc
    rw [Bool.or_eq_true] at hcond
    cases hcond with
    | inl h => exact TransReq.base c hreg h
    | inr h =>
      rw [List.any_eq_true] at h
      obtain ⟨s, hs, hq⟩ := h
      rw [List.any_eq_true] at hq
      obtain ⟨q, hqmem, hsup⟩ := hq
      exact TransReq.step s c q (ih s hs) hreg hqmem hsup

theorem foldlMinCost_mem (cs : List CollectorSpec) (b : CollectorSpec) :
    cs.foldl (fun b d => if d.runCost < b.runCost then d else b) b = b ∨
      cs.foldl (fun b d => if d.runCost < b.runCost then d else b) b ∈ cs := by
  induction cs generalizing b with
  | nil => exact Or.inl rfl
  | cons d ds ih =>
    rw [List.foldl_cons]
    cases ih (if d.runCost < b.runCost then d else b) with
    | inl h =>
      rw [h]
      by_cases hlt : d.runCost < b.runCost
      · exact Or.inr (by simp [hlt])
      · exact Or.inl (by simp [hlt])
    | inr h => exact Or.inr (List.mem_cons_of_mem d h)

theorem pickMinCost_mem (l : List CollectorSpec) (c : CollectorSpec)
    (h : pickMinCost l = some c) : c ∈ l := by
  cases l with
  | nil => exact absurd h (by simp [pickMinCost])
  | cons a as =>
    rw [pickMinCost, Option.some.injEq] at h
    cases foldlMinCost_mem as a with
    | inl heq =>
      rw [← h, heq]
      exact List.mem_cons_self a as
    | inr hmem =>
      rw [← h]
      exact List.mem_cons_of_mem a hmem

theorem scheduleLoop_subset (fuel : Nat) (rem : List CollectorSpec)
    (c : CollectorSpec) (hc : c ∈ scheduleLoop fuel rem) : c ∈ rem := by
  induction fuel generalizing rem with
  | zero => exact absurd hc (by simp [scheduleLoop])
  | succ fuel ih =>
    simp only [scheduleLoop] at hc
    by_cases he : (List.filter (eligible rem) rem).isEmpty = true
    · rw [if_pos he] at hc
      cases hp : pickMinCost rem with
      | none =>
        rw [hp] at hc
        simp at hc
      | some c0 =>
        rw [hp] at hc
        rcases List.mem_cons.mp hc with rfl | hrec
        · exact pickMinCost_mem rem c hp
        · exact List.mem_of_mem_erase (ih (rem.erase c0) hrec)
    · rw [if_neg he] at hc
      cases hp : pickMinCost (List.filter (eligible rem) rem) with
      | none =>
        rw [hp] at hc
        simp at hc
      | some c0 =>
        rw [hp] at hc
        rcases List.mem_cons.mp hc with rfl | hrec
        · exact List.mem_of_mem_filter (pickMinCost_mem _ c hp)
        · exact List.mem_of_mem_erase (ih (rem.erase c0) hrec)

/-- C7: planning is lazy.  Every collector included in the plan — and the
Scheduler executes exactly the planned collectors — is transitively required
to produce one of the requested outputs; contrapositively, a registered
collector whose outputs are never transitively requested is never planned
and hence never executes. -/
theorem planner_lazy_inclusion (reg : List CollectorSpec)
    (req : List QuerySpec) (c : CollectorSpec) (hc : c ∈ plan reg req) :
    TransReq reg req c :=
  requiredIter_sound reg req reg.length c
    (scheduleLoop_subset (requiredSet reg req).length (requiredSet reg req)
      c hc)

/-- Witness for C7 at a concrete registry: a one-collector registry whose
collector produces the requested `Connection` output; the collector is in
the plan, and the theorem yields that it is transitively required. -/
theorem planner_lazy_inclusion_witness :
    TransReq [⟨"sockets", [⟨"Connection", none⟩], [], 1⟩]
      [⟨"Connection", none⟩]
      ⟨"sockets", [⟨"Connection", none⟩], [], 1⟩ :=
  planner_lazy_inclusion [⟨"sockets", [⟨"Connection", none⟩], [], 1⟩]
    [⟨"Connection", none⟩] ⟨"sockets", [⟨"Connection", none⟩], [], 1⟩
    (by decide)

/-- C8: cost ordering.  For two registered collectors with disjoint outputs,
no input dependency between them in either direction, both transitively
requested, and different `run_cost`, the planner schedules the lower-cost
collector before the higher-cost one — whichever order they were registered
in: both the registry `[a, b]` and the adverse registry `[b, a]` plan as
`[a, b]` when `a.runCost < b.runCost`. -/
theorem planner_cost_ordering (a b : CollectorSpec) (req : List QuerySpec)
    (_hdisj : a.outputs.all
      (fun o => b.outputs.all (fun o2 => o.ctype != o2.ctype)) = true)
    (hna : a.cargs.all (fun q => !canSupply b q) = true)
    (hnb : b.cargs.all (fun q => !canSupply a q) = true)
    (hra : producesRequested a req = true)
    (hrb : producesRequested b req = true)
    (hcost : a.runCost < b.runCost) :
    plan [a, b] req = [a, b] ∧ plan [b, a] req = [a, b] := by
  have hnlt : ¬ b.runCost < a.runCost := Nat.not_lt.mpr (Nat.le_of_lt hcost)
  have hne : a ≠ b := by
    intro h
    rw [h] at hcost
    exact absurd hcost (lt_irrefl _)
  have hba : (b == a) = false := beq_eq_false_iff_ne.mpr (fun h => hne h.symm)
  have hebb : eligible [b] b = true := by
    rw [eligible, List.all_eq_true]
    intro q hq
    simp [List.all_cons]
  constructor
  · have hreq : requiredSet [a, b] req = [a, b] := by
      have h0 : ∀ S, requiredStep [a, b] req S = [a, b] := by
        intro S
        simp [requiredStep, List.filter, hra, hrb]
      simp [requiredSet, requiredIter, h0, List.filter, hra, hrb]
    have hea : eligible [a, b] a = true := by
      rw [eligible, List.all_eq_true]
      intro q hq
      have hb := List.all_eq_true.mp hna q hq
      simp [List.all_cons, hb]
    have heb : eligible [a, b] b = true := by
      rw [eligible, List.all_eq_true]
      intro q hq
      have ha := List.all_eq_true.mp hnb q hq
      simp [List.all_cons, ha]
    rw [plan, hreq]
    simp only [List.length_cons, List.length_nil]
    rw [scheduleLoop]
    simp only [List.filter, hea, heb, List.isEmpty_cons,
      if_neg Bool.false_ne_true]
    rw [pickMinCost]
    simp only [List.foldl_cons, List.foldl_nil, if_neg hnlt,
      Option.some.injEq]
    rw [List.erase_cons_head]
    rw [scheduleLoop]
    simp only [List.filter, hebb, List.isEmpty_cons,
      if_neg Bool.false_ne_true]
    rw [pickMinCost]
    simp only [List.foldl_nil, Option.some.injEq]
    rw [List.erase_cons_head]
    rw [scheduleLoop]
  · have hreq : requiredSet [b, a] req = [b, a] := by
      have h0 : ∀ S, requiredStep [b, a] req S = [b, a] := by
        intro S
        simp [requiredStep, List.filter, hra, hrb]
      simp [requiredSet, requiredIter, h0, List.filter, hra, hrb]
    have hea : eligible [b, a] a = true := by
      rw [eligible, List.all_eq_true]
      intro q hq
      have hb := List.all_eq_true.mp hna q hq
      simp [List.all_cons, hb]
    have heb : eligible [b, a] b = true := by
      rw [eligible, List.all_eq_true]
      intro q hq
      have ha := List.all_eq_true.mp hnb q hq
      simp [List.all_cons, ha]
    have herase : [b, a].erase a = [b] := by
      simp [List.erase_cons, hba]
    rw [plan, hreq]
    simp only [List.length_cons, List.length_nil]
    rw [scheduleLoop]
    simp only [List.filter, hea, heb, List.isEmpty_cons,
      if_neg Bool.false_ne_true]
    rw [pickMinCost]
    simp only [List.foldl_cons, List.foldl_nil, if_pos hcost,
      Option.some.injEq]
    rw [herase]
    rw [scheduleLoop]
    simp only [List.filter, hebb, List.isEmpty_cons,
      if_neg Bool.false_ne_true]
    rw [pickMinCost]
    simp only [List.foldl_nil, Option.some.injEq]
    rw [List.erase_cons_head]
    rw [scheduleLoop]

/-- Witness for C8 at concrete collectors: a cheap `sockets` collector and an
expensive `handles` collector, with disjoint outputs, no dependency in either
direction, both producing a requested output; the plan runs the cheap one
first for both registration orders — also when the expensive collector is
registered first. -/
theorem planner_cost_ordering_witness :
    (plan [⟨"sockets", [⟨"Connection", none⟩], [], 1⟩,
           ⟨"handles", [⟨"Handle", none⟩], [], 3⟩]
       [⟨"Connection", none⟩, ⟨"Handle", none⟩] =
      [⟨"sockets", [⟨"Connection", none⟩], [], 1⟩,
       ⟨"handles", [⟨"Handle", none⟩], [], 3⟩]) ∧
    (plan [⟨"handles", [⟨"Handle", none⟩], [], 3⟩,
           ⟨"sockets", [⟨"Connection", none⟩], [], 1⟩]
       [⟨"Connection", none⟩, ⟨"Handle", none⟩] =
      [⟨"sockets", [⟨"Connection", none⟩], [], 1⟩,
       ⟨"handles", [⟨"Handle", none⟩], [], 3⟩]) :=
  planner_cost_ordering ⟨"sockets", [⟨"Connection", none⟩], [], 1⟩
    ⟨"handles", [⟨"Handle", none⟩], [], 3⟩
    [⟨"Connection", none⟩, ⟨"Handle", none⟩]
    (by decide) (by decide) (by decide) (by decide) (by decide) (by decide)

/-- An element of a yield record: an Identity, a canonical key, or a
component instance. -/
inductive RecordElem where
  | idElem (i : Identity)
  | keyElem (k : CanonKey)
  | compElem (c : ComponentInstance)
deriving DecidableEq, Repr

/-- A yield record: the sequence a collector yields for one entity. -/
abbrev Record := List RecordElem

/-- `definitions.MemoryObject`: field names from the call sites in
`handles.py` (the schema module `rekall.entities.definitions` is not in the
source tree); an argument left `none` is a field the call site omits. -/
def MemoryObject (base_object type : Option Value) : ComponentInstance :=
  ⟨"MemoryObject", [("base_object", base_object), ("type", type)]⟩

/-- `definitions.Handle`: field names from the call sites in `handles.py`. -/
def Handle (process fd flags resource : Option Value) : ComponentInstance :=
  ⟨"Handle",
   [("process", process), ("fd", fd), ("flags", flags),
    ("resource", resource)]⟩

/-- `definitions.Named`: field names from the call sites in `handles.py`. -/
def Named (name kind : Option Value) : ComponentInstance :=
  ⟨"Named", [("name", name), ("kind", kind)]⟩

/-- `definitions.Connection`: field names from the call sites in
`handles.py`. -/
def Connection (protocol_family : Option Value) : ComponentInstance :=
  ⟨"Connection", [("protocol_family", protocol_family)]⟩

/-- `definitions.OSILayer3`: field names from the call sites in
`handles.py`. -/
def OSILayer3 (src_addr dst_addr protocol : Option Value) :
    ComponentInstance :=
  ⟨"OSILayer3",
   [("src_addr", src_addr), ("dst_addr", dst_addr), ("protocol", protocol)]⟩

/-- `definitions.OSILayer4`: field names from the call sites in
`handles.py`. -/
def OSILayer4 (src_port dst_port protocol state : Option Value) :
    ComponentInstance :=
  ⟨"OSILayer4",
   [("src_port", src_port), ("dst_port", dst_port), ("protocol", protocol),
    ("state", state)]⟩

/-- `definitions.Socket`: field names from the call sites in `handles.py`. -/
def Socket (type file address connected : Option Value) : ComponentInstance :=
  ⟨"Socket",
   [("type", type), ("file", file), ("address", address),
    ("connected", connected)]⟩

/-- `definitions.Event`: field names from the call sites in `handles.py`. -/
def Event (actor action target category : Option Value) : ComponentInstance :=
  ⟨"Event",
   [("actor", actor), ("action", action), ("target", target),
    ("category", category)]⟩

/-- `definitions.File`: field names from the call sites in `handles.py`. -/
def File (path type : Option Value) : ComponentInstance :=
  ⟨"File", [("path", path), ("type", type)]⟩

/-- Python's `"0x%x" % int(x)` formatting used by the socket collector. -/
def pyHex (n : Nat) : String :=
  "0x" ++ String.mk (Nat.toDigits 16 n)

/-- A vnode as the socket collector reads it: `full_path` and the address of
the object `.deref()` returns. -/
structure Vnode where
  full_path : String
  deref : Nat
deriving DecidableEq, Repr

/-- A raw `socket` kernel object, with the fields the Darwin collectors
read: addressing family, display name, layer-3/4 endpoints, an optional
vnode (Python truthiness of `socket.vnode`), unix-socket data, and the last
accessing pid. -/
structure DSocket where
  addressing_family : String
  human_name : String
  src_addr : String
  dst_addr : String
  src_port : Int
  dst_port : Int
  l4_protocol : String
  tcp_state : String
  vnode : Option Vnode
  unix_type : String
  so_pcb : Nat
  unp_conn : Nat
  last_pid : Int
deriving DecidableEq, Repr

/-- An input entity of the socket collectors: its identity and its
`MemoryObject/base_object` socket. -/
structure SocketEntity where
  identity : Identity
  base : DSocket
deriving DecidableEq, Repr

/-- An `unpcb` list element as `UnpListCollector` reads it: the address of
its `unp_socket`. -/
structure Unp where
  unp_socket : Nat
deriving DecidableEq, Repr

/-- The data `fileproc.autocast_fg_data()` yields: the object's address and
its `obj_type` (`none` models invalid in-memory data, for which the call
returns a falsey value). -/
structure FgData where
  addr : Nat
  obj_type : String
deriving DecidableEq, Repr

/-- A `fileproc` as the handle collector reads it. -/
structure Fileproc where
  addr : Nat
  fg_data : Option FgData
deriving DecidableEq, Repr

/-- One `(fd, fileproc, flags)` triple from `proc.get_open_files()`. -/
structure OpenFile where
  fd : Int
  fileproc : Fileproc
  flags : Int
deriving DecidableEq, Repr

/-- An input process entity of the handle collector: its identity and the
open files of its `MemoryObject/base_object` proc. -/
structure ProcessEntity where
  identity : Identity
  open_files : List OpenFile
deriving DecidableEq, Repr

/-- An input process entity of `DarwinSocketLastAccess`: its identity and
its `Process/pid`. -/
structure ProcEntity where
  identity : Identity
  pid : Int
deriving DecidableEq, Repr

/-- Thread the Identity Store through a per-element collector body,
concatenating the yielded records in order. -/
def foldCollect {β : Type} (f : IdStore → β → IdStore × List Record)
    (st : IdStore) (xs : List β) : IdStore × List Record :=
  xs.foldl (fun acc x =>
    let r := f acc.1 x
    (r.1, acc.2 ++ r.2)) (st, [])

/-- `DarwinSocketCollector.collect`, body for one socket entity
(`handles.py` lines 144-206).  AF_INET/AF_INET6 sockets yield one record of
connection components; AF_UNIX sockets yield the socket record — whose
`Socket.file` field holds the identity obtained for `File/path` when the
vnode is present, and is absent (`None`) otherwise — followed by a record
for the backing file, but only under the source's `if path:` guard (line
189): the vnode must be present and its `full_path` truthy, i.e. non-empty;
any other family yields an unknown-socket record. -/
def socketCollectOne (st : IdStore) (e : SocketEntity) :
    IdStore × List Record :=
  let socket := e.base
  let family := socket.addressing_family
  if family = "AF_INET" ∨ family = "AF_INET6" then
    (st,
     [[.idElem e.identity,
       .compElem (Named (some (.str socket.human_name))
         (some (.str "IP Connection"))),
       .compElem (Connection (some (.str (family.replace "AF_" "")))),
       .compElem (OSILayer3 (some (.str socket.src_addr))
         (some (.str socket.dst_addr))
         (some (.str (if family = "AF_INET" then "IPv4" else "IPv6")))),
       .compElem (OSILayer4 (some (.int socket.src_port))
         (some (.int socket.dst_port)) (some (.str socket.l4_protocol))
         (some (.str socket.tcp_state)))]])
  else if family = "AF_UNIX" then
    match socket.vnode with
    | some vn =>
      let path := vn.full_path
      let idr := st.identify [("File/path", .str path)]
      (idr.1,
       if path = "" then
         [[.idElem e.identity,
           .compElem (Named (some (.str socket.human_name))
             (some (.str "Unix Socket"))),
           .compElem (Connection (some (.str "UNIX"))),
           .compElem (Socket (some (.str socket.unix_type))
             (some (.ident idr.2)) (some (.str (pyHex socket.so_pcb)))
             (some (.str (pyHex socket.unp_conn))))]]
       else
         [[.idElem e.identity,
           .compElem (Named (some (.str socket.human_name))
             (some (.str "Unix Socket"))),
           .compElem (Connection (some (.str "UNIX"))),
           .compElem (Socket (some (.str socket.unix_type))
             (some (.ident idr.2)) (some (.str (pyHex socket.so_pcb)))
             (some (.str (pyHex socket.unp_conn))))],
          [.compElem (File (some (.str path)) (some (.str "socket"))),
           .compElem (Named (some (.str path)) (some (.str "Socket"))),
           .compElem (MemoryObject (some (.ptr vn.deref))
             (some (.str "vnode")))]])
    | none =>
      (st,
       [[.idElem e.identity,
         .compElem (Named (some (.str socket.human_name))
           (some (.str "Unix Socket"))),
         .compElem (Connection (some (.str "UNIX"))),
         .compElem (Socket (some (.str socket.unix_type)) none
           (some (.str (pyHex socket.so_pcb)))
           (some (.str (pyHex socket.unp_conn))))]])
  else
    (st,
     [[.idElem e.identity,
       .compElem (Named none (some (.str "Unknown Socket"))),
       .compElem (Connection (some (.str (family.replace "AF_" ""))))]])

/-- `DarwinSocketCollector.collect` over its `sockets` input stream. -/
def socketCollect (st : IdStore) (sockets : List SocketEntity) :
    IdStore × List Record :=
  foldCollect socketCollectOne st sockets

/-- `DarwinHandleCollector.collect`, body for one open file (`handles.py`
lines 50-83): invalid `fg_data` is skipped; otherwise the resource record
and the handle record are yielded under identities from the Identity
Store. -/
def handleCollectFile (st : IdStore) (pident : Identity) (f : OpenFile) :
    IdStore × List Record :=
  match f.fileproc.fg_data with
  | none => (st, [])
  | some fg =>
    let r1 := st.identify [("MemoryObject/base_object", .ptr fg.addr)]
    let r2 := r1.1.identify
      [("MemoryObject/base_object", .ptr f.fileproc.addr)]
    (r2.1,
     [[.idElem r1.2,
       .compElem (MemoryObject (some (.ptr fg.addr))
         (some (.str fg.obj_type)))],
      [.idElem r2.2,
       .compElem (Handle (some (.ident pident)) (some (.int f.fd))
         (some (.int f.flags)) (some (.ident r1.2))),
       .compElem (MemoryObject (some (.ptr f.fileproc.addr))
         (some (.str "fileproc")))]])

/-- `DarwinHandleCollector.collect` for one process entity. -/
def handleCollectProcess (st : IdStore) (p : ProcessEntity) :
    IdStore × List Record :=
  foldCollect (fun st f => handleCollectFile st p.identity f) st p.open_files

/-- `DarwinHandleCollector.collect` over its `processes` input stream. -/
def handleCollect (st : IdStore) (processes : List ProcessEntity) :
    IdStore × List Record :=
  foldCollect handleCollectProcess st processes

/-- `UnpListCollector.collect` (`handles.py` lines 263-275): walks the
`_unp_dhead` and `_unp_shead` lists and yields, for each element, a record
whose elements are the socket `MemoryObject` component and a `Named`
component — the record starts with a component instance, not an Identity or
canonical key. -/
def unpListCollect (dhead shead : List Unp) : List Record :=
  (dhead ++ shead).map fun unp =>
    [.compElem (MemoryObject (some (.ptr unp.unp_socket))
       (some (.str "socket"))),
     .compElem (Named none (some (.str "Unix Socket")))]

/-- Python-dict construction `by_pid[process["Process/pid"]] = process` over
the processes stream: lookups find the most recent binding. -/
def byPid (processes : List ProcEntity) : List (Int × ProcEntity) :=
  processes.foldl (fun m p => (p.pid, p) :: m) []

/-- Python truthiness of a process entity object: a plain object with no
`__bool__`/`__len__` is always truthy, so the `if not process` guard in
`DarwinSocketLastAccess.collect` can never take its skip branch on a value
actually returned by the dict lookup. -/
def pyTruthy (_p : ProcEntity) : Bool :=
  true

/-- `DarwinSocketLastAccess.collect` (`handles.py` lines 101-122) as a
generator: for each socket the dict lookup `by_pid[base_socket.last_pid]`
either finds a process — the `if not process` guard then tests its
truthiness — or raises `KeyError`, which aborts the generator: the third
component carries the missing pid and no further record is produced. -/
def lastAccessGen (st : IdStore) (m : List (Int × ProcEntity)) :
    List SocketEntity → IdStore × List Record × Option Int
  | [] => (st, [], none)
  | s :: rest =>
    match m.lookup s.base.last_pid with
    | none => (st, [], some s.base.last_pid)
    | some p =>
      if pyTruthy p then
        let ei := st.identify
          [("Event/actor", .ident p.identity),
           ("Event/action", .str "accessed"),
           ("Event/target", .ident s.identity),
           ("Event/category", .str "latest")]
        let r := lastAccessGen ei.1 m rest
        (r.1,
         [.idElem ei.2,
          .compElem (Event (some (.ident p.identity))
            (some (.str "accessed")) (some (.ident s.identity))
            (some (.str "latest")))] :: r.2.1,
         r.2.2)
      else
        lastAccessGen st m rest

/-- `DarwinSocketLastAccess.collect`: build `by_pid` from the processes
stream, then walk the sockets stream. -/
def lastAccessCollect (st : IdStore) (processes : List ProcEntity)
    (sockets : List SocketEntity) : IdStore × List Record × Option Int :=
  lastAccessGen st (byPid processes) sockets

theorem lookup_cons_none (a : Int) (b : ProcEntity)
    (l : List (Int × ProcEntity)) (k : Int) :
    ((a, b) :: l).lookup k = none ↔ k ≠ a ∧ l.lookup k = none := by
  by_cases hk : k = a
  · subst hk
    simp [List.lookup]
  · have hb : (k == a) = false := beq_eq_false_iff_ne.mpr hk
    simp [List.lookup, hb, hk]

theorem byPid_aux_lookup_none (procs : List ProcEntity)
    (acc : List (Int × ProcEntity)) (k : Int) :
    (procs.foldl (fun m p => (p.pid, p) :: m) acc).lookup k = none ↔
      (∀ p ∈ procs, p.pid ≠ k) ∧ acc.lookup k = none := by
  induction procs generalizing acc with
  | nil => simp
  | cons p ps ih =>
    rw [List.foldl_cons, ih, lookup_cons_none]
    constructor
    · rintro ⟨hps, hne, hacc⟩
      exact ⟨fun q hq => by
        rcases List.mem_cons.mp hq with rfl | hmem
        · exact fun hh => hne hh.symm
        · exact hps q hmem, hacc⟩
    · rintro ⟨hall, hacc⟩
      exact ⟨fun q hq => hall q (List.mem_cons_of_mem p hq),
        fun hh => hall p (List.mem_cons_self p ps) hh.symm, hacc⟩

theorem byPid_lookup_none (procs : List ProcEntity) (k : Int) :
    (byPid procs).lookup k = none ↔ ∀ p ∈ procs, p.pid ≠ k := by
  rw [byPid, byPid_aux_lookup_none]
  simp [List.lookup]

/-- C10: in `DarwinSocketLastAccess.collect`, when some socket's base object
has a `last_pid` equal to no collected process's `Process/pid` (and the
sockets before it all resolve), the dictionary lookup
`by_pid[base_socket.last_pid]` raises `KeyError` — carried in the result's
third component — before the `if not process` guard can run (in the model
the guard is only reached on the `some` branch of the lookup, so its skip
branch is unreachable for missing pids), and the generator produces exactly
the Event records of the sockets before the bad one: none for it or any
remaining socket. -/
theorem lastaccess_missing_pid_keyerror (st : IdStore)
    (procs : List ProcEntity) (pre rest : List SocketEntity)
    (bad : SocketEntity)
    (hpre : ∀ s ∈ pre, ∃ p ∈ procs, p.pid = s.base.last_pid)
    (hbad : ∀ p ∈ procs, p.pid ≠ bad.base.last_pid) :
    (lastAccessCollect st procs (pre ++ bad :: rest)).2.2 =
        some bad.base.last_pid ∧
    (lastAccessCollect st procs (pre ++ bad :: rest)).2.1 =
        (lastAccessCollect st procs pre).2.1 := by
  unfold lastAccessCollect
  revert hpre
  induction pre generalizing st with
  | nil =>
    intro _
    have hnone : (byPid procs).lookup bad.base.last_pid = none :=
      (byPid_lookup_none procs bad.base.last_pid).mpr hbad
    simp [lastAccessGen, hnone]
  | cons s pre ih =>
    intro hpre
    obtain ⟨p, hl⟩ : ∃ p, (byPid procs).lookup s.base.last_pid = some p := by
      cases hl : (byPid procs).lookup s.base.last_pid with
      | some p => exact ⟨p, rfl⟩
      | none =>
        obtain ⟨q, hq, hqpid⟩ := hpre s (List.mem_cons_self s pre)
        exact absurd hqpid
          ((byPid_lookup_none procs s.base.last_pid).mp hl q hq)
    have ih' := ih
      ((st.identify
        [("Event/actor", .ident p.identity),
         ("Event/action", .str "accessed"),
         ("Event/target", .ident s.identity),
         ("Event/category", .str "latest")]).1)
      (fun u hu => hpre u (List.mem_cons_of_mem s hu))
    simp only [List.cons_append, lastAccessGen, hl, pyTruthy, if_true]
    exact ⟨ih'.1, congrArg (List.cons _) ih'.2⟩

/-- A socket whose `last_pid` (2) matches no collected process. -/
def badSockC10 : DSocket :=
  ⟨"AF_UNIX", "", "", "", 0, 0, "", "", none, "", 0, 0, 2⟩

/-- A socket whose `last_pid` (1) does match the collected process. -/
def okSockC10 : DSocket :=
  ⟨"AF_UNIX", "", "", "", 0, 0, "", "", none, "", 0, 0, 1⟩

/-- Witness for C10 at a concrete input: one process with pid 1, a first
socket with `last_pid` 2 (matching no process), one further socket with a
valid pid behind it: the run aborts with the missing pid 2 and produces no
Event record at all — in particular none for the remaining valid socket. -/
theorem lastaccess_missing_pid_keyerror_witness :
    (lastAccessCollect ⟨[], 0⟩ [⟨0, 1⟩]
       ([] ++ ⟨7, badSockC10⟩ :: [⟨8, okSockC10⟩])).2.2 = some 2 ∧
    (lastAccessCollect ⟨[], 0⟩ [⟨0, 1⟩]
       ([] ++ ⟨7, badSockC10⟩ :: [⟨8, okSockC10⟩])).2.1 =
      (lastAccessCollect ⟨[], 0⟩ [⟨0, 1⟩] []).2.1 :=
  lastaccess_missing_pid_keyerror ⟨[], 0⟩ [⟨0, 1⟩] [] [⟨8, okSockC10⟩]
    ⟨7, badSockC10⟩ (by simp) (by decide)

/-- A record element that is a component instance. -/
def isCompElem : RecordElem → Bool
  | .compElem _ => true
  | _ => false

/-- The first element of the record is an Identity or a canonical key. -/
def recordHeadIsIdOrKey : Record → Bool
  | .idElem _ :: _ => true
  | .keyElem _ :: _ => true
  | _ => false

/-- A yield record in the shape the runner accepts: nonempty, and every
element after the first is a component instance. -/
def recordWellShaped (r : Record) : Bool :=
  !r.isEmpty && r.tail.all isCompElem

/-- C5 counterexample: `UnpListCollector.collect` on a one-element
`_unp_dhead` list yields a record whose first element is the socket's
`MemoryObject` component instance — not an Identity and not a canonical
key — so not every yield record starts with an Identity or canonical key. -/
theorem yield_record_head_counterexample :
    unpListCollect [⟨1⟩] [] =
      [[.compElem (MemoryObject (some (.ptr 1)) (some (.str "socket"))),
        .compElem (Named none (some (.str "Unix Socket")))]] ∧
    (unpListCollect [⟨1⟩] []).all recordHeadIsIdOrKey = false :=
  ⟨rfl, rfl⟩

theorem socketCollectOne_shape (st : IdStore) (e : SocketEntity) :
    ((socketCollectOne st e).2).all recordWellShaped = true := by
  unfold socketCollectOne
  by_cases h1 : e.base.addressing_family = "AF_INET" ∨
      e.base.addressing_family = "AF_INET6"
  · simp only [if_pos h1]
    rfl
  · simp only [if_neg h1]
    by_cases h2 : e.base.addressing_family = "AF_UNIX"
    · simp only [if_pos h2]
      cases e.base.vnode with
      | none => rfl
      | some vn =>
        by_cases hp : vn.full_path = ""
        · simp only [if_pos hp]
          rfl
        · simp only [if_neg hp]
          rfl
    · simp only [if_neg h2]
      rfl

theorem handleCollectFile_shape (st : IdStore) (pident : Identity)
    (f : OpenFile) :
    ((handleCollectFile st pident f).2).all recordWellShaped = true := by
  unfold handleCollectFile
  cases f.fileproc.fg_data <;> rfl

theorem foldCollect_shape {β : Type}
    (f : IdStore → β → IdStore × List Record)
    (hf : ∀ st x, ((f st x).2).all recordWellShaped = true)
    (st : IdStore) (xs : List β) :
    ((foldCollect f st xs).2).all recordWellShaped = true := by
  suffices h : ∀ (xs : List β) (acc : IdStore × List Record),
      acc.2.all recordWellShaped = true →
      ((xs.foldl (fun acc x =>
        let r := f acc.1 x
        (r.1, acc.2 ++ r.2)) acc).2).all recordWellShaped = true by
    exact h xs (st, []) rfl
  intro xs
  induction xs with
  | nil =>
    intro acc h
    exact h
  | cons x xs ih =>
    intro acc h
    rw [List.foldl_cons]
    exact ih _ (by simp only [List.all_append, h, hf, Bool.and_self])

theorem lastAccessGen_shape (st : IdStore) (m : List (Int × ProcEntity))
    (socks : List SocketEntity) :
    ((lastAccessGen st m socks).2.1).all recordWellShaped = true := by
  induction socks generalizing st with
  | nil => rfl
  | cons s rest ih =>
    rw [lastAccessGen]
    cases m.lookup s.base.last_pid with
    | none => rfl
    | some p =>
      simp only [pyTruthy, if_true, List.all_cons, ih, Bool.and_true]
      rfl

/-- The declared field names of each component type, from the constructor
call sites in `handles.py` (the schema module is not in the source tree). -/
def schemaOf : String → Option (List String)
  | "MemoryObject" => some ["base_object", "type"]
  | "Handle" => some ["process", "fd", "flags", "resource"]
  | "Named" => some ["name", "kind"]
  | "Connection" => some ["protocol_family"]
  | "OSILayer3" => some ["src_addr", "dst_addr", "protocol"]
  | "OSILayer4" => some ["src_port", "dst_port", "protocol", "state"]
  | "Socket" => some ["type", "file", "address", "connected"]
  | "Event" => some ["actor", "action", "target", "category"]
  | "File" => some ["path", "type"]
  | _ => none

/-- A component instance carries exactly the declared fields of its type. -/
def SchemaOK (c : ComponentInstance) : Prop :=
  ∀ ks, schemaOf c.ctype = some ks → c.fields.map Prod.fst = ks

/-- Every component instance in the store carries exactly the declared
fields of its type (all instances of one component type share one schema). -/
def WellFormed (es : EntStore) : Prop :=
  ∀ row ∈ es, ∀ c ∈ row.2, SchemaOK c

theorem schemaOK_of (c : ComponentInstance)
    (h : schemaOf c.ctype = some (c.fields.map Prod.fst)) : SchemaOK c := by
  intro ks hks
  rw [h] at hks
  injection hks

/-- Modelled from the spec: the canonical key under which the runner files a
record whose first element is a component instance rather than an Identity
or canonical key (as the unp-list records and the socket collector's vnode
record are).  The identity-defining attribute of a `File` is its `path` and
of a `MemoryObject` its `base_object`; for any other leading component all
its non-absent fields form the key. -/
def componentKey (c : ComponentInstance) : CanonKey :=
  if c.ctype = "File" then
    match c.fields.lookup "path" with
    | some (some v) => [("File/path", v)]
    | _ => []
  else if c.ctype = "MemoryObject" then
    match c.fields.lookup "base_object" with
    | some (some v) => [("MemoryObject/base_object", v)]
    | _ => []
  else
    c.fields.filterMap fun p => p.2.map fun v => (c.ctype ++ "/" ++ p.1, v)

/-- Modelled from the spec: the runner writes one yield record through the
Identity Store and Entity Store (§4.5).  The first element names the
identity — an Identity as-is, a canonical key via `identify`, a leading
component instance via its identity-defining key — and every component
instance of the record (the leading one included) is merged onto that
identity in order. -/
def runRecord (st : IdStore) (es : EntStore) (r : Record) :
    IdStore × EntStore :=
  match r with
  | [] => (st, es)
  | h :: t =>
    let ri : IdStore × Identity :=
      match h with
      | .idElem i => (st, i)
      | .keyElem k => st.identify k
      | .compElem c => st.identify (componentKey c)
    let comps := (match h with | .compElem c => [c] | _ => []) ++
      t.filterMap fun el => match el with | .compElem c => some c | _ => none
    (ri.1, comps.foldl (fun s c => entMerge s ri.2 c) es)

/-- Modelled from the spec: the runner merges every yielded record in
order (§4.5). -/
def runRecords (st : IdStore) (es : EntStore) (rs : List Record) :
    IdStore × EntStore :=
  rs.foldl (fun acc r => runRecord acc.1 acc.2 r) (st, es)

theorem keys_mergeFields (old new : List (String × Option Value)) :
    (mergeFields old new).map Prod.fst = old.map Prod.fst := by
  induction old with
  | nil => rfl
  | cons p ps ih =>
    simp only [mergeFields, List.map_cons] at ih ⊢
    rw [ih]

theorem mem_mergeComponent (cs : List ComponentInstance)
    (c d : ComponentInstance) (hd : d ∈ mergeComponent cs c) :
    d ∈ cs ∨ d = c ∨
      ∃ e ∈ cs, d = ⟨e.ctype, mergeFields e.fields c.fields⟩ := by
  induction cs with
  | nil =>
    simp only [mergeComponent, List.mem_singleton] at hd
    exact Or.inr (Or.inl hd)
  | cons e es ih =>
    by_cases he : e.ctype = c.ctype
    · rw [mergeComponent, if_pos he] at hd
      rcases List.mem_cons.mp hd with rfl | hmem
      · exact Or.inr (Or.inr ⟨e, List.mem_cons_self e es, rfl⟩)
      · exact Or.inl (List.mem_cons_of_mem e hmem)
    · rw [mergeComponent, if_neg he] at hd
      rcases List.mem_cons.mp hd with rfl | hmem
      · exact Or.inl (List.mem_cons_self d es)
      · rcases ih hmem with h | h | ⟨f, hf, hdf⟩
        · exact Or.inl (List.mem_cons_of_mem e h)
        · exact Or.inr (Or.inl h)
        · exact Or.inr (Or.inr ⟨f, List.mem_cons_of_mem e hf, hdf⟩)

theorem schemaOK_mergeComponent (cs : List ComponentInstance)
    (c d : ComponentInstance) (hcs : ∀ x ∈ cs, SchemaOK x) (hc : SchemaOK c)
    (hd : d ∈ mergeComponent cs c) : SchemaOK d := by
  rcases mem_mergeComponent cs c d hd with h | rfl | ⟨e, he, rfl⟩
  · exact hcs d h
  · exact hc
  · intro ks hks
    rw [keys_mergeFields]
    exact hcs e he ks hks

theorem wellFormed_entMerge (es : EntStore) (i : Identity)
    (c : ComponentInstance) (hwf : WellFormed es) (hc : SchemaOK c) :
    WellFormed (entMerge es i c) := by
  induction es with
  | nil =>
    intro row hrow d hd
    rcases List.mem_singleton.mp hrow with rfl
    rcases List.mem_singleton.mp hd with rfl
    exact hc
  | cons row0 rest ih =>
    obtain ⟨j, cs⟩ := row0
    by_cases hj : j = i
    · subst hj
      rw [entMerge, if_pos rfl]
      intro row hrow d hd
      rcases List.mem_cons.mp hrow with rfl | hmem
      · exact schemaOK_mergeComponent cs c d
          (fun x hx => hwf (j, cs) (List.mem_cons_self _ _) x hx) hc hd
      · exact hwf row (List.mem_cons_of_mem _ hmem) d hd
    · rw [entMerge, if_neg hj]
      intro row hrow d hd
      rcases List.mem_cons.mp hrow with rfl | hmem
      · exact hwf (j, cs) (List.mem_cons_self _ _) d hd
      · exact ih (fun r hr x hx => hwf r (List.mem_cons_of_mem _ hr) x hx)
          row hmem d hd

theorem entStore_lookup_mem (s : EntStore) (i : Identity)
    (cs : List ComponentInstance) (h : s.lookup i = some cs) : (i, cs) ∈ s := by
  induction s with
  | nil => exact absurd h (by simp [List.lookup])
  | cons row rest ih =>
    obtain ⟨j, ds⟩ := row
    by_cases hij : i = j
    · subst hij
      simp only [List.lookup, beq_self_eq_true, Option.some.injEq] at h
      rw [← h]
      exact List.mem_cons_self _ _
    · have hb : (i == j) = false := beq_eq_false_iff_ne.mpr hij
      simp only [List.lookup, hb] at h
      exact List.mem_cons_of_mem _ (ih h)

theorem getComp_some (cs : List ComponentInstance) (t : String)
    (c : ComponentInstance) (h : getComp cs t = some c) :
    c ∈ cs ∧ c.ctype = t := by
  unfold getComp at h
  exact ⟨List.mem_of_find?_eq_some h, by simpa using List.find?_some h⟩

theorem wellFormed_getComp (s : EntStore) (i : Identity) (t : String)
    (c : ComponentInstance) (hwf : WellFormed s)
    (h : entGetComp s i t = some c) : SchemaOK c ∧ c.ctype = t := by
  unfold entGetComp entComps at h
  cases hl : s.lookup i with
  | none =>
    rw [hl] at h
    exact absurd h (by simp [getComp, List.find?])
  | some cs =>
    rw [hl] at h
    have hc := getComp_some cs t c h
    exact ⟨hwf (i, cs) (entStore_lookup_mem s i cs hl) c hc.1, hc.2⟩

theorem entGetComp_entMerge_self (s : EntStore) (i : Identity)
    (c : ComponentInstance) :
    entGetComp (entMerge s i c) i c.ctype =
      some (match entGetComp s i c.ctype with
            | none => c
            | some o => ⟨c.ctype, mergeFields o.fields c.fields⟩) := by
  unfold entGetComp
  rw [entComps_entMerge]
  exact getComp_mergeComponent_self (entComps s i) c

theorem entGetComp_entMerge_other_type (s : EntStore) (i : Identity)
    (c : ComponentInstance) (t : String) (ht : t ≠ c.ctype) :
    entGetComp (entMerge s i c) i t = entGetComp s i t := by
  unfold entGetComp
  rw [entComps_entMerge]
  exact getComp_mergeComponent_other (entComps s i) c t ht

theorem entGetComp_entMerge_other_id (s : EntStore) (i j : Identity)
    (c : ComponentInstance) (t : String) (hij : j ≠ i) :
    entGetComp (entMerge s i c) j t = entGetComp s j t := by
  unfold entGetComp
  rw [entComps_entMerge_other s i j c hij]

theorem fieldOf_entGetComp_entMerge_set (s : EntStore) (i : Identity)
    (c : ComponentInstance) (n : String) (v : Value)
    (hc : c.fields.lookup n = some (some v))
    (hold : ∀ old, entGetComp s i c.ctype = some old →
      old.fields.map Prod.fst = c.fields.map Prod.fst) :
    (entGetComp (entMerge s i c) i c.ctype).bind (fieldOf · n) = some v := by
  rw [entGetComp_entMerge_self]
  cases hg : entGetComp s i c.ctype with
  | none =>
    simp only [hg, Option.some_bind]
    unfold fieldOf
    rw [hc]
    rfl
  | some old =>
    simp only [hg, Option.some_bind]
    unfold fieldOf
    simp only []
    rw [lookup_mergeFields]
    have hkeys := hold old hg
    have hnmem : n ∈ c.fields.map Prod.fst := by
      by_contra hnm
      rw [(lookup_none_iff_not_mem_keys c.fields n).mpr hnm] at hc
      exact Option.noConfusion hc
    cases hlo : old.fields.lookup n with
    | none =>
      rw [lookup_none_iff_not_mem_keys, hkeys] at hlo
      exact absurd hnmem hlo
    | some w => simp [hlo, hc]

theorem entGetComp_entMerge_ne_type (s : EntStore) (i j : Identity)
    (c : ComponentInstance) (t : String) (ht : t ≠ c.ctype) :
    entGetComp (entMerge s i c) j t = entGetComp s j t := by
  by_cases hij : j = i
  · subst hij
    exact entGetComp_entMerge_other_type s j c t ht
  · exact entGetComp_entMerge_other_id s i j c t hij

theorem merged_connection_unix (es : EntStore) (i : Identity)
    (hwf : WellFormed es) (n1 n2 s1 s2 s3 s4 : Option Value) :
    (entGetComp (entMerge (entMerge (entMerge es i (Named n1 n2)) i
        (Connection (some (Value.str "UNIX")))) i (Socket s1 s2 s3 s4)) i
        "Connection").bind (fieldOf · "protocol_family") =
      some (Value.str "UNIX") := by
  rw [entGetComp_entMerge_other_type _ _ _ _
    (show ("Connection" : String) ≠ "Socket" by decide)]
  refine fieldOf_entGetComp_entMerge_set _ _ _ _ _ rfl ?_
  intro old hg
  have hwf1 : WellFormed (entMerge es i (Named n1 n2)) :=
    wellFormed_entMerge _ _ _ hwf (schemaOK_of _ rfl)
  have h2 := wellFormed_getComp _ _ _ _ hwf1 hg
  exact h2.1 ["protocol_family"] (by rw [h2.2]; exact rfl)

theorem merged_socket_file (es : EntStore) (i : Identity)
    (hwf : WellFormed es) (n1 n2 s1 s3 s4 : Option Value) (v : Value) :
    (entGetComp (entMerge (entMerge (entMerge es i (Named n1 n2)) i
        (Connection (some (Value.str "UNIX")))) i
        (Socket s1 (some v) s3 s4)) i "Socket").bind (fieldOf · "file") =
      some v := by
  refine fieldOf_entGetComp_entMerge_set _ _ _ _ _ rfl ?_
  intro old hg
  have hwf2 : WellFormed (entMerge (entMerge es i (Named n1 n2)) i
      (Connection (some (Value.str "UNIX")))) :=
    wellFormed_entMerge _ _ _
      (wellFormed_entMerge _ _ _ hwf (schemaOK_of _ rfl))
      (schemaOK_of _ rfl)
  have h2 := wellFormed_getComp _ _ _ _ hwf2 hg
  exact h2.1 ["type", "file", "address", "connected"]
    (by rw [h2.2]; exact rfl)

theorem merged_file_path (es : EntStore) (j : Identity)
    (hwf : WellFormed es) (t2 n1 n2 m1 m2 : Option Value) (p : Value) :
    (entGetComp (entMerge (entMerge (entMerge es j (File (some p) t2)) j
        (Named n1 n2)) j (MemoryObject m1 m2)) j "File").bind
      (fieldOf · "path") = some p := by
  rw [entGetComp_entMerge_other_type _ _ _ _
       (show ("File" : String) ≠ "MemoryObject" by decide),
     entGetComp_entMerge_other_type _ _ _ _
       (show ("File" : String) ≠ "Named" by decide)]
  refine fieldOf_entGetComp_entMerge_set _ _ _ _ _ rfl ?_
  intro old hg
  have h2 := wellFormed_getComp _ _ _ _ hwf hg
  exact h2.1 ["path", "type"] (by rw [h2.2]; exact rfl)

/-- C5 (amended): every yield record produced by a modelled collector
invocation — the unp-list, socket, handle, and last-access collectors — is a
nonempty sequence whose first element is an Identity, a canonical key, or a
leading component instance (the identity then being derived from that
component via the Identity Store), and whose remaining elements are
component instances to merge onto that identity. -/
theorem yield_record_shape_amended (dh sh : List Unp)
    (st1 st2 st3 : IdStore) (sockets : List SocketEntity)
    (procs : List ProcessEntity) (m : List (Int × ProcEntity))
    (socks : List SocketEntity) :
    (unpListCollect dh sh).all recordWellShaped = true ∧
    ((socketCollect st1 sockets).2).all recordWellShaped = true ∧
    ((handleCollect st2 procs).2).all recordWellShaped = true ∧
    ((lastAccessGen st3 m socks).2.1).all recordWellShaped = true := by
  refine ⟨?_, ?_, ?_, lastAccessGen_shape st3 m socks⟩
  · rw [List.all_eq_true]
    intro r hr
    obtain ⟨unp, _, rfl⟩ := List.mem_map.mp hr
    rfl
  · exact foldCollect_shape socketCollectOne socketCollectOne_shape
      st1 sockets
  · exact foldCollect_shape handleCollectProcess
      (fun st p => foldCollect_shape
        (fun st f => handleCollectFile st p.identity f)
        (fun st f => handleCollectFile_shape st p.identity f) st
        p.open_files)
      st2 procs

/-- C6: for every AF_UNIX socket processed by the sockets collector, after
the yielded records are written through the Identity Store and Entity Store,
the resulting Entity carries a `Connection` component with
`protocol_family = "UNIX"` (whether or not a vnode is present); when the
socket's vnode is present, its `Socket` component's `file` field holds the
identity assigned to the canonical key `File/path = path`; and when a
backing file path exists — the vnode is present and, per the source's
`if path:` guard, its `full_path` is truthy (non-empty) — the entity at that
identity carries a `File` component with that path: the File entity is
reachable through the socket's `file` reference. -/
theorem af_unix_socket_connection_and_file (st : IdStore) (es : EntStore)
    (e : SocketEntity)
    (hfam : e.base.addressing_family = "AF_UNIX")
    (hwf : WellFormed es) :
    (entGetComp (runRecords (socketCollect st [e]).1 es
        (socketCollect st [e]).2).2 e.identity "Connection").bind
      (fieldOf · "protocol_family") = some (Value.str "UNIX") ∧
    (∀ vn, e.base.vnode = some vn →
      (entGetComp (runRecords (socketCollect st [e]).1 es
          (socketCollect st [e]).2).2 e.identity "Socket").bind
        (fieldOf · "file") =
        some (Value.ident
          (st.identify [("File/path", Value.str vn.full_path)]).2)) ∧
    (∀ vn, e.base.vnode = some vn → vn.full_path ≠ "" →
      (entGetComp (runRecords (socketCollect st [e]).1 es
          (socketCollect st [e]).2).2
          (st.identify [("File/path", Value.str vn.full_path)]).2
          "File").bind
        (fieldOf · "path") = some (Value.str vn.full_path)) := by
  cases hv : e.base.vnode with
  | none =>
    have hcol : socketCollect st [e] =
        (st,
         [[.idElem e.identity,
           .compElem (Named (some (.str e.base.human_name))
             (some (.str "Unix Socket"))),
           .compElem (Connection (some (.str "UNIX"))),
           .compElem (Socket (some (.str e.base.unix_type)) none
             (some (.str (pyHex e.base.so_pcb)))
             (some (.str (pyHex e.base.unp_conn))))]]) := by
      unfold socketCollect foldCollect
      simp only [List.foldl_cons, List.foldl_nil, List.nil_append]
      simp only [socketCollectOne, hfam, hv]
      simp
    have hrr : runRecords st es
        [[.idElem e.identity,
          .compElem (Named (some (.str e.base.human_name))
            (some (.str "Unix Socket"))),
          .compElem (Connection (some (.str "UNIX"))),
          .compElem (Socket (some (.str e.base.unix_type)) none
            (some (.str (pyHex e.base.so_pcb)))
            (some (.str (pyHex e.base.unp_conn))))]] =
        (st,
         entMerge (entMerge (entMerge es e.identity
           (Named (some (.str e.base.human_name))
             (some (.str "Unix Socket")))) e.identity
           (Connection (some (.str "UNIX")))) e.identity
           (Socket (some (.str e.base.unix_type)) none
             (some (.str (pyHex e.base.so_pcb)))
             (some (.str (pyHex e.base.unp_conn))))) := rfl
    simp only [hcol, hrr]
    refine ⟨merged_connection_unix es e.identity hwf _ _ _ _ _ _, ?_, ?_⟩
    · intro vn hvn
      exact absurd hvn (by simp)
    · intro vn hvn _
      exact absurd hvn (by simp)
  | some vn =>
    by_cases hp : vn.full_path = ""
    · have hcol : socketCollect st [e] =
          ((st.identify [("File/path", Value.str vn.full_path)]).1,
           [[.idElem e.identity,
             .compElem (Named (some (.str e.base.human_name))
               (some (.str "Unix Socket"))),
             .compElem (Connection (some (.str "UNIX"))),
             .compElem (Socket (some (.str e.base.unix_type))
               (some (.ident (st.identify
                 [("File/path", Value.str vn.full_path)]).2))
               (some (.str (pyHex e.base.so_pcb)))
               (some (.str (pyHex e.base.unp_conn))))]]) := by
        unfold socketCollect foldCollect
        simp only [List.foldl_cons, List.foldl_nil, List.nil_append]
        simp only [socketCollectOne, hfam, hv]
        simp [hp]
      have hrr : runRecords
          (st.identify [("File/path", Value.str vn.full_path)]).1 es
          [[.idElem e.identity,
            .compElem (Named (some (.str e.base.human_name))
              (some (.str "Unix Socket"))),
            .compElem (Connection (some (.str "UNIX"))),
            .compElem (Socket (some (.str e.base.unix_type))
              (some (.ident (st.identify
                [("File/path", Value.str vn.full_path)]).2))
              (some (.str (pyHex e.base.so_pcb)))
              (some (.str (pyHex e.base.unp_conn))))]] =
          ((st.identify [("File/path", Value.str vn.full_path)]).1,
           entMerge (entMerge (entMerge es e.identity
             (Named (some (.str e.base.human_name))
               (some (.str "Unix Socket")))) e.identity
             (Connection (some (.str "UNIX")))) e.identity
             (Socket (some (.str e.base.unix_type))
               (some (.ident (st.identify
                 [("File/path", Value.str vn.full_path)]).2))
               (some (.str (pyHex e.base.so_pcb)))
               (some (.str (pyHex e.base.unp_conn))))) := rfl
      simp only [hcol, hrr]
      refine ⟨merged_connection_unix es e.identity hwf _ _ _ _ _ _, ?_, ?_⟩
      · intro vn2 hvn
        injection hvn with h2
        subst h2
        exact merged_socket_file es e.identity hwf _ _ _ _ _ _
      · intro vn2 hvn hne
        injection hvn with h2
        subst h2
        exact absurd hp hne
    · have hcol : socketCollect st [e] =
          ((st.identify [("File/path", Value.str vn.full_path)]).1,
           [[.idElem e.identity,
             .compElem (Named (some (.str e.base.human_name))
               (some (.str "Unix Socket"))),
             .compElem (Connection (some (.str "UNIX"))),
             .compElem (Socket (some (.str e.base.unix_type))
               (some (.ident (st.identify
                 [("File/path", Value.str vn.full_path)]).2))
               (some (.str (pyHex e.base.so_pcb)))
               (some (.str (pyHex e.base.unp_conn))))],
            [.compElem (File (some (.str vn.full_path))
               (some (.str "socket"))),
             .compElem (Named (some (.str vn.full_path))
               (some (.str "Socket"))),
             .compElem (MemoryObject (some (.ptr vn.deref))
               (some (.str "vnode")))]]) := by
        unfold socketCollect foldCollect
        simp only [List.foldl_cons, List.foldl_nil, List.nil_append]
        simp only [socketCollectOne, hfam, hv]
        simp [hp]
      have hidF : ((st.identify
            [("File/path", Value.str vn.full_path)]).1).identify
          [("File/path", Value.str vn.full_path)] =
          ((st.identify [("File/path", Value.str vn.full_path)]).1,
           (st.identify [("File/path", Value.str vn.full_path)]).2) :=
        IdStore.identify_eq_of_lookup _ _ _
          (IdStore.lookup_identify_self st _)
      have hrr : runRecords
          (st.identify [("File/path", Value.str vn.full_path)]).1 es
          [[.idElem e.identity,
            .compElem (Named (some (.str e.base.human_name))
              (some (.str "Unix Socket"))),
            .compElem (Connection (some (.str "UNIX"))),
            .compElem (Socket (some (.str e.base.unix_type))
              (some (.ident
                (st.identify [("File/path", Value.str vn.full_path)]).2))
              (some (.str (pyHex e.base.so_pcb)))
              (some (.str (pyHex e.base.unp_conn))))],
           [.compElem (File (some (.str vn.full_path))
              (some (.str "socket"))),
            .compElem (Named (some (.str vn.full_path))
              (some (.str "Socket"))),
            .compElem (MemoryObject (some (.ptr vn.deref))
              (some (.str "vnode")))]] =
          ((((st.identify [("File/path", Value.str vn.full_path)]).1).identify
              [("File/path", Value.str vn.full_path)]).1,
           entMerge (entMerge (entMerge
             (entMerge (entMerge (entMerge es e.identity
               (Named (some (.str e.base.human_name))
                 (some (.str "Unix Socket")))) e.identity
               (Connection (some (.str "UNIX")))) e.identity
               (Socket (some (.str e.base.unix_type))
                 (some (.ident
                   (st.identify [("File/path", Value.str vn.full_path)]).2))
                 (some (.str (pyHex e.base.so_pcb)))
                 (some (.str (pyHex e.base.unp_conn)))))
             ((((st.identify
                   [("File/path", Value.str vn.full_path)]).1).identify
                 [("File/path", Value.str vn.full_path)]).2)
             (File (some (.str vn.full_path)) (some (.str "socket"))))
             ((((st.identify
                   [("File/path", Value.str vn.full_path)]).1).identify
                 [("File/path", Value.str vn.full_path)]).2)
             (Named (some (.str vn.full_path)) (some (.str "Socket"))))
             ((((st.identify
                   [("File/path", Value.str vn.full_path)]).1).identify
                 [("File/path", Value.str vn.full_path)]).2)
             (MemoryObject (some (.ptr vn.deref))
               (some (.str "vnode")))) := rfl
      simp only [hcol, hrr, hidF]
      refine ⟨?_, ?_, ?_⟩
      · rw [entGetComp_entMerge_ne_type _ _ _ _ _
             (show ("Connection" : String) ≠ "MemoryObject" by decide),
           entGetComp_entMerge_ne_type _ _ _ _ _
             (show ("Connection" : String) ≠ "Named" by decide),
           entGetComp_entMerge_ne_type _ _ _ _ _
             (show ("Connection" : String) ≠ "File" by decide)]
        exact merged_connection_unix es e.identity hwf _ _ _ _ _ _
      · intro vn2 hvn
        injection hvn with h2
        subst h2
        rw [entGetComp_entMerge_ne_type _ _ _ _ _
             (show ("Socket" : String) ≠ "MemoryObject" by decide),
           entGetComp_entMerge_ne_type _ _ _ _ _
             (show ("Socket" : String) ≠ "Named" by decide),
           entGetComp_entMerge_ne_type _ _ _ _ _
             (show ("Socket" : String) ≠ "File" by decide)]
        exact merged_socket_file es e.identity hwf _ _ _ _ _ _
      · intro vn2 hvn hne
        injection hvn with h2
        subst h2
        have hwf3 : WellFormed (entMerge (entMerge (entMerge es e.identity
            (Named (some (.str e.base.human_name))
              (some (.str "Unix Socket")))) e.identity
            (Connection (some (.str "UNIX")))) e.identity
            (Socket (some (.str e.base.unix_type))
              (some (.ident
                (st.identify [("File/path", Value.str vn.full_path)]).2))
              (some (.str (pyHex e.base.so_pcb)))
              (some (.str (pyHex e.base.unp_conn))))) :=
          wellFormed_entMerge _ _ _
            (wellFormed_entMerge _ _ _
              (wellFormed_entMerge _ _ _ hwf (schemaOK_of _ rfl))
              (schemaOK_of _ rfl))
            (schemaOK_of _ rfl)
        exact merged_file_path _ _ hwf3 _ _ _ _ _ (Value.str vn.full_path)

/-- A concrete AF_UNIX socket with a backing vnode at `/tmp/s`. -/
def c6Sock : DSocket :=
  ⟨"AF_UNIX", "sock", "", "", 0, 0, "", "", some ⟨"/tmp/s", 99⟩, "stream",
   16, 32, 1⟩

/-- The concrete socket entity (identity 5) for the C6 witness. -/
def c6Entity : SocketEntity :=
  ⟨5, c6Sock⟩

/-- Witness for C6 at a concrete input: one AF_UNIX socket with vnode path
`/tmp/s` (non-empty, so the `if path:` guard passes), empty stores; the
resulting entity carries `Connection{protocol_family="UNIX"}`, its
`Socket.file` holds the `File/path` identity, and that identity's entity
carries the `File` component. -/
theorem af_unix_socket_connection_and_file_witness :
    (entGetComp (runRecords (socketCollect ⟨[], 0⟩ [c6Entity]).1 []
        (socketCollect ⟨[], 0⟩ [c6Entity]).2).2 c6Entity.identity
        "Connection").bind (fieldOf · "protocol_family") =
      some (Value.str "UNIX") ∧
    (entGetComp (runRecords (socketCollect ⟨[], 0⟩ [c6Entity]).1 []
        (socketCollect ⟨[], 0⟩ [c6Entity]).2).2 c6Entity.identity
        "Socket").bind (fieldOf · "file") =
      some (Value.ident
        ((⟨[], 0⟩ : IdStore).identify
          [("File/path", Value.str "/tmp/s")]).2) ∧
    (entGetComp (runRecords (socketCollect ⟨[], 0⟩ [c6Entity]).1 []
        (socketCollect ⟨[], 0⟩ [c6Entity]).2).2
        ((⟨[], 0⟩ : IdStore).identify
          [("File/path", Value.str "/tmp/s")]).2 "File").bind
      (fieldOf · "path") = some (Value.str "/tmp/s") :=
  ⟨(af_unix_socket_connection_and_file ⟨[], 0⟩ [] c6Entity rfl
      (fun row hrow => absurd hrow (List.not_mem_nil row))).1,
   (af_unix_socket_connection_and_file ⟨[], 0⟩ [] c6Entity rfl
      (fun row hrow => absurd hrow (List.not_mem_nil row))).2.1
     ⟨"/tmp/s", 99⟩ rfl,
   (af_unix_socket_connection_and_file ⟨[], 0⟩ [] c6Entity rfl
      (fun row hrow => absurd hrow (List.not_mem_nil row))).2.2
     ⟨"/tmp/s", 99⟩ rfl (by decide)⟩

end Rekall
